import Mathlib

/-!
Shallow embedding of `src/legal_doc_scraper.py`.

External collaborators (HTTP fetching, BeautifulSoup anchor parsing,
`urllib.parse.urljoin` / `urlparse`, the categorization oracle and
`json.loads`) are passed in as function parameters, mirroring the spec's
"external collaborator" boundary; everything else is translated directly
from the Python source.  Python dicts are modelled as association lists
(insertion-ordered, first-key lookup), Python floats as rationals, and
Python strings as `String` with slicing on the underlying character list.
-/

namespace LegalScraper

/-- An anchor element as produced by `soup.find_all("a", href=True)`:
its `href` attribute and its stripped visible text `link.get_text(strip=True)`. -/
structure Anchor where
  href : String
  text : String
deriving DecidableEq

/-- One entry of the `legal_links` list: the dict
`{"url": full_url, "text": ..., "href": href}`. -/
structure Link where
  url : String
  text : String
  href : String
deriving DecidableEq

/-- The classification dict `{"category": ..., "confidence": ..., "summary": ...}`
with the caller's `.get` defaults already applied (category `"unknown"`,
confidence `0`, summary `""`).  Confidence is modelled as a rational. -/
structure Outcome where
  category : String
  confidence : Rat
  summary : String
deriving DecidableEq

/-- Table `DOCUMENT_TYPES`: the seven taxonomy categories with their phrase lists. -/
def DOCUMENT_TYPES : List (String × List String) := [
  ("R01_terms_and_conditions",
    ["terms", "terms of service", "terms and conditions", "terms of use",
     "tos", "user agreement", "service agreement"]),
  ("R02_privacy_policy",
    ["privacy", "privacy policy", "privacy notice", "data policy",
     "data protection", "privacy statement"]),
  ("R03_ada_acc_statement",
    ["accessibility", "ada", "accessibility statement", "wcag",
     "accessible", "disability", "a11y"]),
  ("R04_cookie_usage_policy",
    ["cookie", "cookies", "cookie policy", "cookie notice",
     "cookie preferences", "tracking"]),
  ("R05_ai_usage_policy_disclaimer",
    ["ai policy", "ai disclaimer", "artificial intelligence", "ai usage",
     "machine learning", "automated decision", "ai disclosure"]),
  ("R06_refund_and_return_policy",
    ["refund", "return", "returns", "refund policy", "return policy",
     "money back", "cancellation", "exchange policy"]),
  ("R07_dmca_slash_copyright_policy",
    ["dmca", "copyright", "intellectual property", "ip policy",
     "copyright notice", "takedown", "infringement"])]

/-- The seven taxonomy keys in declaration order (`DOCUMENT_TYPES.keys()`);
membership in this list models `category in DOCUMENT_TYPES`. -/
def DOC_KEYS : List String := DOCUMENT_TYPES.map Prod.fst

/-- List `LEGAL_KEYWORDS`: keywords used to find legal links in general. -/
def LEGAL_KEYWORDS : List String :=
  ["terms", "privacy", "legal", "policy", "cookie", "accessibility",
   "refund", "return", "dmca", "copyright", "disclaimer", "ai",
   "conditions", "notice", "compliance", "gdpr"]

/-- Python's substring test `pat in hay`. -/
def strContains (hay pat : String) : Bool :=
  hay.data.tails.any (fun t => pat.data.isPrefixOf t)

/-- Python's character slice `s[:n]`. -/
def pySlice (s : String) (n : Nat) : String :=
  String.mk (s.data.take n)

/-- Python's `s.lower()`, character by character. -/
def pyLower (s : String) : String :=
  String.mk (s.data.map Char.toLower)

/-- First-match lookup in an association list, modelling `d[k]` / `k in d`
on an insertion-ordered Python dict. -/
def assocFind {β : Type} (l : List (String × β)) (k : String) : Option β :=
  match l with
  | [] => none
  | (k', v) :: rest => if k' = k then some v else assocFind rest k

/-- Assignment `d[k] = v` on an insertion-ordered Python dict: replaces the
first entry with key `k` in place, or appends a new entry at the end. -/
def assocSet {β : Type} (l : List (String × β)) (k : String) (v : β) :
    List (String × β) :=
  match l with
  | [] => [(k, v)]
  | (k', v') :: rest => if k' = k then (k, v) :: rest else (k', v') :: assocSet rest k v

/-- The `is_legal` test of `find_legal_links`: some legal keyword occurs in
the case-folded anchor text or in the case-folded href. -/
def isLegalAnchor (a : Anchor) : Bool :=
  LEGAL_KEYWORDS.any (fun kw =>
    strContains (pyLower a.text) kw || strContains (pyLower a.href) kw)

/-- One iteration of the `find_legal_links` loop over anchors, carrying the
state `(seen_urls, legal_links)`.  `join` models `urljoin(base_url, href)`. -/
def findStep (join : String → String) (st : List String × List Link)
    (a : Anchor) : List String × List Link :=
  let full := join a.href
  if full ∈ st.1 then st
  else if isLegalAnchor a then
    (full :: st.1, st.2 ++ [⟨full, a.text, a.href⟩])
  else st

/-- Function `find_legal_links(html, base_url)`, with the BeautifulSoup anchor
extraction factored out: input is the list of anchors of the page and the
resolver `join href = urljoin(base_url, href)`. -/
def find_legal_links (join : String → String) (anchors : List Anchor) :
    List Link :=
  (anchors.foldl (findStep join) ([], [])).2

/-- List `common_paths`: the probed conventional legal page paths. -/
def common_paths : List String :=
  ["/terms", "/terms-of-service", "/tos", "/terms-and-conditions",
   "/privacy", "/privacy-policy",
   "/accessibility", "/ada",
   "/cookies", "/cookie-policy",
   "/refund", "/refund-policy", "/returns",
   "/dmca", "/copyright",
   "/legal", "/policies"]

/-- Title-casing pass of Python's `str.title()` for strings of lowercase
letters and spaces: upper-cases the first character of every word. -/
def titleWords : Bool → List Char → List Char
  | _, [] => []
  | atStart, c :: cs =>
    if c = ' ' then c :: titleWords true cs
    else (if atStart then c.toUpper else c.toLower) :: titleWords false cs

/-- Display text of a probed path:
`path.strip("/").replace("-", " ").title()`. -/
def probeText (path : String) : String :=
  let stripped := ((path.data.dropWhile (· = '/')).reverse.dropWhile (· = '/')).reverse
  let spaced := stripped.map (fun c => if c = '-' then ' ' else c)
  String.mk (titleWords true spaced)

/-- One iteration of the `common_paths` loop: appends a probed candidate
only when its absolute URL is not already among the current candidates. -/
def addProbesStep (base : String) (acc : List Link) (path : String) :
    List Link :=
  let full := base ++ path
  if full ∈ acc.map Link.url then acc
  else acc ++ [⟨full, probeText path, path⟩]

/-- The `common_paths` loop of `scrape_legal_documents`: merges probed
conventional paths into the extracted candidate list.  `base` models
`f"{parsed.scheme}://{parsed.netloc}"` of the target URL. -/
def addProbes (base : String) (links : List Link) : List Link :=
  common_paths.foldl (addProbesStep base) links

/-- The fallback outcome `{"category": "unknown", "confidence": 0, "summary": ""}`. -/
def defaultOutcome : Outcome := ⟨"unknown", 0, ""⟩

/-- Model of `re.search(r'\x7b.*\x7d', s, re.DOTALL)`: the greedy match runs from the
first opening brace to the last closing brace, if that span is nonempty. -/
def extractJson (s : String) : Option String :=
  let fromOpen := s.data.dropWhile (· ≠ '{')
  let span := (fromOpen.reverse.dropWhile (· ≠ '}')).reverse
  if span.isEmpty then none else some (String.mk span)

/-- The `text[:8000]` truncation of `classify_document_with_ai`. -/
def text_preview_of (text : String) : String :=
  if text.length > 8000 then pySlice text 8000 else text

/-- Function `classify_document_with_ai(url, text, link_text)`.  The oracle call
(`client.messages.create` plus reading `response.content[0].text`) is
modelled as a function returning `Except`, whose `error` case stands for
any exception raised inside the `try` block; `jsonDecode` models
`json.loads` (returning `none` when it would raise) combined with the
caller's defaulting `.get` accessors. -/
def classify_document_with_ai
    (oracle : String → String → String → Except Unit String)
    (jsonDecode : String → Option Outcome)
    (url text link_text : String) : Outcome :=
  let text_preview := text_preview_of text
  match oracle url text_preview link_text with
  | .error _ => defaultOutcome
  | .ok result_text =>
    match extractJson result_text with
    | some j =>
      match jsonDecode j with
      | some o => o
      | none => defaultOutcome
    | none => defaultOutcome

/-- State machine for `re.sub(r'\n\x7b3,\x7d', '\n\n', text)`: `emitRun k`
renders a maximal run of `k` consecutive newlines, collapsing runs of three
or more to a blank line. -/
def emitRun (k : Nat) : List Char :=
  if k ≥ 3 then ['\n', '\n'] else List.replicate k '\n'

/-- Scanner for `re.sub(r'\n\x7b3,\x7d', '\n\n', text)`: accumulates the
length of the current newline run and emits it via `emitRun` at each
non-newline character and at the end. -/
def collapseAux : Nat → List Char → List Char
  | k, [] => emitRun k
  | k, c :: rest =>
    if c = '\n' then collapseAux (k + 1) rest
    else emitRun k ++ (c :: collapseAux 0 rest)

/-- Binding `clean_text = re.sub(r'\n\x7b3,\x7d', '\n\n', text)` of
`convert_to_rich_text`. -/
def clean_text_of (text : String) : String :=
  String.mk (collapseAux 0 text.data)

/-- Binding `truncated = clean_text[:5000] if len(clean_text) > 5000 else clean_text`. -/
def truncated_of (text : String) : String :=
  let clean_text := clean_text_of text
  if clean_text.length > 5000 then pySlice clean_text 5000 else clean_text

/-- Function `convert_to_rich_text(text, url, summary)`: the Airtable-friendly
markdown block built by the f-string. -/
def convert_to_rich_text (text url summary : String) : String :=
  let clean_text := clean_text_of text
  let truncated := truncated_of text
  "**Source:** [" ++ url ++ "](" ++ url ++ ")\n\n**Summary:** " ++ summary ++
    "\n\n---\n\n" ++ truncated ++ "\n\n" ++
    (if clean_text.length > 5000 then "..." else "") ++ "\n"

/-- A value stored in the `_meta` dict. -/
inductive MetaVal where
  | str (s : String)
  | nat (n : Nat)
deriving DecidableEq

/-- The dict returned by `scrape_legal_documents`, split into the seven
category slots and the `_meta` record. -/
structure ScrapeResult where
  slots : List (String × String)
  meta : List (String × MetaVal)
deriving DecidableEq

/-- The external collaborators of `scrape_legal_documents`:
`fetch` is `get_page_content` (url to `(html, text)`, both empty on any
fetch failure); `parseAnchors` is the BeautifulSoup anchor extraction from
raw html; `join` is `urljoin(target_url, ·)`; `base` is
`f"{parsed.scheme}://{parsed.netloc}"` of the target URL; `oracle` and
`jsonDecode` are as in `classify_document_with_ai`. -/
structure Env where
  fetch : String → String × String
  parseAnchors : String → List Anchor
  join : String → String
  base : String
  oracle : String → String → String → Except Unit String
  jsonDecode : String → Option Outcome

/-- One iteration of the `for link in legal_links` loop of
`scrape_legal_documents`, carrying `(results, documents_found)`.  The
acceptance threshold `mkRat 6 10` is the source's literal `0.6`. -/
def processStep (env : Env) (st : List (String × String) × Nat)
    (link : Link) : List (String × String) × Nat :=
  let text := (env.fetch link.url).2
  if text = "" ∨ text.length < 100 then st
  else
    let classification :=
      classify_document_with_ai env.oracle env.jsonDecode link.url text link.text
    let category := classification.category
    let confidence := classification.confidence
    let summary := classification.summary
    if category ∈ DOC_KEYS ∧ confidence ≥ mkRat 6 10 then
      if assocFind st.1 category = some "None" then
        (assocSet st.1 category (convert_to_rich_text text link.url summary),
         st.2 + 1)
      else st
    else st

/-- Initial slots: `{doc_type: "None" for doc_type in DOCUMENT_TYPES.keys()}`. -/
def results0 : List (String × String) :=
  DOCUMENT_TYPES.map (fun p => (p.1, "None"))

/-- Initial `_meta` record of `scrape_legal_documents`. -/
def meta_init (target_url : String) : List (String × MetaVal) :=
  [("url", .str target_url), ("links_found", .nat 0),
   ("documents_identified", .nat 0)]

/-- Main function `scrape_legal_documents(target_url)`. -/
def scrape_legal_documents (env : Env) (target_url : String) : ScrapeResult :=
  let html := (env.fetch target_url).1
  if html = "" then
    { slots := results0,
      meta := assocSet (meta_init target_url) "error"
        (.str "Could not fetch main page") }
  else
    let legal_links := find_legal_links env.join (env.parseAnchors html)
    let meta1 := assocSet (meta_init target_url) "links_found"
      (.nat legal_links.length)
    let all_links := addProbes env.base legal_links
    let final := all_links.foldl (processStep env) (results0, 0)
    { slots := final.1,
      meta := assocSet meta1 "documents_identified" (.nat final.2) }

/-- Number of category slots holding a non-sentinel value. -/
def countNonNone (slots : List (String × String)) : Nat :=
  slots.countP (fun p => !(p.2 == "None"))

/-- A well-formed slot value: the sentinel, or a rendering produced by
`convert_to_rich_text`. -/
def SlotOk (v : String) : Prop :=
  v = "None" ∨ ∃ t u s, v = convert_to_rich_text t u s

lemma assocFind_assocSet_self {β : Type} (l : List (String × β)) (k : String) (v : β) :
    assocFind (assocSet l k v) k = some v := by
  induction l with
  | nil => simp [assocSet, assocFind]
  | cons p rest ih =>
    obtain ⟨k', v'⟩ := p
    by_cases h : k' = k
    · simp [assocSet, assocFind, h]
    · simp [assocSet, assocFind, h, ih]

lemma assocFind_assocSet_ne {β : Type} (l : List (String × β)) (k k' : String) (v : β)
    (h : k' ≠ k) : assocFind (assocSet l k v) k' = assocFind l k' := by
  induction l with
  | nil => simp [assocSet, assocFind, Ne.symm h]
  | cons p rest ih =>
    obtain ⟨k₁, v₁⟩ := p
    by_cases hp : k₁ = k
    · subst hp
      simp [assocSet, assocFind, Ne.symm h]
    · by_cases hk : k₁ = k'
      · simp [assocSet, assocFind, hp, hk, h]
      · simp [assocSet, assocFind, hp, hk, ih]

lemma assocSet_map_fst_of_find {β : Type} (l : List (String × β)) (k : String) (v w : β)
    (h : assocFind l k = some w) :
    (assocSet l k v).map Prod.fst = l.map Prod.fst := by
  induction l with
  | nil => simp [assocFind] at h
  | cons p rest ih =>
    by_cases hp : p.1 = k
    · simp [assocSet, hp]
    · simp only [assocFind, if_neg hp] at h
      simp [assocSet, if_neg hp, ih h]

lemma mem_assocSet {β : Type} (l : List (String × β)) (k : String) (v : β)
    (q : String × β) (h : q ∈ assocSet l k v) : q ∈ l ∨ q = (k, v) := by
  induction l with
  | nil => simp [assocSet] at h; simp [h]
  | cons p rest ih =>
    by_cases hp : p.1 = k
    · simp only [assocSet, if_pos hp, List.mem_cons] at h
      rcases h with h | h
      · exact Or.inr h
      · exact Or.inl (List.mem_cons_of_mem _ h)
    · simp only [assocSet, if_neg hp, List.mem_cons] at h
      rcases h with h | h
      · exact Or.inl (h ▸ List.mem_cons_self _ _)
      · rcases ih h with h' | h'
        · exact Or.inl (List.mem_cons_of_mem _ h')
        · exact Or.inr h'

lemma assocFind_mem {β : Type} (l : List (String × β)) (k : String) (v : β)
    (h : assocFind l k = some v) : (k, v) ∈ l := by
  induction l with
  | nil => simp [assocFind] at h
  | cons p rest ih =>
    obtain ⟨k₁, v₁⟩ := p
    by_cases hp : k₁ = k
    · simp only [assocFind, if_pos hp, Option.some.injEq] at h
      subst hp; subst h
      exact List.mem_cons_self _ _
    · simp only [assocFind, if_neg hp] at h
      exact List.mem_cons_of_mem _ (ih h)

lemma countNonNone_assocSet (l : List (String × String)) (k : String) (v : String)
    (h : assocFind l k = some "None") (hv : v ≠ "None") :
    countNonNone (assocSet l k v) = countNonNone l + 1 := by
  induction l with
  | nil => simp [assocFind] at h
  | cons p rest ih =>
    by_cases hp : p.1 = k
    · simp only [assocFind, if_pos hp, Option.some.injEq] at h
      simp only [assocSet, if_pos hp, countNonNone, List.countP_cons]
      simp [h, hv]
    · simp only [assocFind, if_neg hp] at h
      simp only [assocSet, if_neg hp, countNonNone, List.countP_cons]
      have := ih h
      simp only [countNonNone] at this
      omega

lemma convert_to_rich_text_ne_none (t u s : String) :
    convert_to_rich_text t u s ≠ "None" := by
  intro h
  have hl := congrArg String.length h
  simp only [convert_to_rich_text, String.length_append] at hl
  have h4 : ("None" : String).length = 4 := rfl
  have h13 : ("**Source:** [" : String).length = 13 := rfl
  omega

lemma processStep_skip (env : Env) (st : List (String × String) × Nat) (link : Link)
    (h : (env.fetch link.url).2 = "" ∨ ((env.fetch link.url).2).length < 100) :
    processStep env st link = st := by
  simp only [processStep]
  rw [if_pos h]

lemma processStep_eq_or (env : Env) (st : List (String × String) × Nat) (link : Link) :
    processStep env st link = st ∨
    ((classify_document_with_ai env.oracle env.jsonDecode link.url
        ((env.fetch link.url).2) link.text).category ∈ DOC_KEYS ∧
      (classify_document_with_ai env.oracle env.jsonDecode link.url
        ((env.fetch link.url).2) link.text).confidence ≥ mkRat 6 10) ∧
    assocFind st.1 (classify_document_with_ai env.oracle env.jsonDecode link.url
        ((env.fetch link.url).2) link.text).category = some "None" ∧
    processStep env st link =
      (assocSet st.1
        (classify_document_with_ai env.oracle env.jsonDecode link.url
          ((env.fetch link.url).2) link.text).category
        (convert_to_rich_text ((env.fetch link.url).2) link.url
          (classify_document_with_ai env.oracle env.jsonDecode link.url
            ((env.fetch link.url).2) link.text).summary),
       st.2 + 1) := by
  simp only [processStep]
  split
  · exact Or.inl rfl
  · split
    · rename_i hacc
      split
      · rename_i hnone
        exact Or.inr ⟨hacc, hnone, rfl⟩
      · exact Or.inl rfl
    · exact Or.inl rfl

lemma processFold_map_fst (env : Env) (links : List Link)
    (st : List (String × String) × Nat) :
    ((links.foldl (processStep env) st).1).map Prod.fst = st.1.map Prod.fst := by
  induction links generalizing st with
  | nil => rfl
  | cons l rest ih =>
    rw [List.foldl_cons, ih]
    rcases processStep_eq_or env st l with h | ⟨-, hfind, h⟩
    · rw [h]
    · rw [h]
      exact assocSet_map_fst_of_find _ _ _ _ hfind

lemma processFold_preserve (env : Env) (links : List Link)
    (st : List (String × String) × Nat) (cat v : String)
    (hfind : assocFind st.1 cat = some v) (hv : v ≠ "None") :
    assocFind (links.foldl (processStep env) st).1 cat = some v := by
  induction links generalizing st with
  | nil => exact hfind
  | cons l rest ih =>
    rw [List.foldl_cons]
    apply ih
    rcases processStep_eq_or env st l with h | ⟨-, hfind', h⟩
    · rw [h]; exact hfind
    · rw [h]
      rw [assocFind_assocSet_ne]
      · exact hfind
      · intro hh
        rw [hh, hfind'] at hfind
        exact hv (Option.some.inj hfind).symm

lemma processFold_count (env : Env) (links : List Link)
    (st : List (String × String) × Nat) (h : st.2 = countNonNone st.1) :
    (links.foldl (processStep env) st).2 =
      countNonNone (links.foldl (processStep env) st).1 := by
  induction links generalizing st with
  | nil => exact h
  | cons l rest ih =>
    rw [List.foldl_cons]
    apply ih
    rcases processStep_eq_or env st l with hh | ⟨-, hfind, hh⟩
    · rw [hh]; exact h
    · rw [hh]
      show st.2 + 1 = countNonNone (assocSet st.1 _ (convert_to_rich_text _ _ _))
      rw [countNonNone_assocSet st.1 _ _ hfind (convert_to_rich_text_ne_none _ _ _), h]

lemma processFold_slotOk (env : Env) (links : List Link)
    (st : List (String × String) × Nat) (h : ∀ p ∈ st.1, SlotOk p.2) :
    ∀ p ∈ (links.foldl (processStep env) st).1, SlotOk p.2 := by
  induction links generalizing st with
  | nil => exact h
  | cons l rest ih =>
    rw [List.foldl_cons]
    apply ih
    rcases processStep_eq_or env st l with hh | ⟨-, hfind, hh⟩
    · rw [hh]; exact h
    · rw [hh]
      intro p hp
      rcases mem_assocSet _ _ _ _ hp with hp' | hp'
      · exact h p hp'
      · rw [hp']
        exact Or.inr ⟨_, _, _, rfl⟩

lemma processFold_skip_all (env : Env) (links : List Link)
    (st : List (String × String) × Nat)
    (h : ∀ l ∈ links, ((env.fetch l.url).2).length < 100) :
    links.foldl (processStep env) st = st := by
  induction links generalizing st with
  | nil => rfl
  | cons l rest ih =>
    rw [List.foldl_cons,
      processStep_skip env st l (Or.inr (h l (List.mem_cons_self _ _)))]
    exact ih _ (fun l' hl' => h l' (List.mem_cons_of_mem _ hl'))

lemma scrape_fail_slots (env : Env) (t : String) (h : (env.fetch t).1 = "") :
    (scrape_legal_documents env t).slots = results0 := by
  simp only [scrape_legal_documents]
  rw [if_pos h]

lemma scrape_fail_meta (env : Env) (t : String) (h : (env.fetch t).1 = "") :
    (scrape_legal_documents env t).meta =
      [("url", .str t), ("links_found", .nat 0), ("documents_identified", .nat 0),
       ("error", .str "Could not fetch main page")] := by
  simp only [scrape_legal_documents]
  rw [if_pos h]
  rfl

lemma scrape_ok_slots (env : Env) (t : String) (h : ¬(env.fetch t).1 = "") :
    (scrape_legal_documents env t).slots =
      ((addProbes env.base
          (find_legal_links env.join (env.parseAnchors (env.fetch t).1))).foldl
        (processStep env) (results0, 0)).1 := by
  simp only [scrape_legal_documents]
  rw [if_neg h]

lemma scrape_ok_meta (env : Env) (t : String) (h : ¬(env.fetch t).1 = "") :
    (scrape_legal_documents env t).meta =
      assocSet
        (assocSet (meta_init t) "links_found"
          (.nat (find_legal_links env.join (env.parseAnchors (env.fetch t).1)).length))
        "documents_identified"
        (.nat (((addProbes env.base
            (find_legal_links env.join (env.parseAnchors (env.fetch t).1))).foldl
          (processStep env) (results0, 0)).2)) := by
  simp only [scrape_legal_documents]
  rw [if_neg h]

/-- Invariant of the `find_legal_links` loop state: `seen_urls` holds
exactly the URLs of the accepted candidates, and those are distinct. -/
def FindInv (st : List String × List Link) : Prop :=
  (∀ u, u ∈ st.1 ↔ u ∈ st.2.map Link.url) ∧ (st.2.map Link.url).Nodup

lemma findStep_inv (join : String → String) (st : List String × List Link)
    (a : Anchor) (h : FindInv st) : FindInv (findStep join st a) := by
  obtain ⟨hiff, hnd⟩ := h
  simp only [findStep]
  split
  · exact ⟨hiff, hnd⟩
  · rename_i hseen
    split
    · refine ⟨?_, ?_⟩
      · intro u
        have hu := hiff u
        simp only [List.map_append, List.map_cons, List.map_nil, List.mem_cons,
          List.mem_append, List.mem_singleton, List.not_mem_nil, or_false] at *
        tauto
      · have hnotmem : join a.href ∉ st.2.map Link.url := fun hc => hseen ((hiff _).2 hc)
        simp [List.nodup_append, hnd, hnotmem]
    · exact ⟨hiff, hnd⟩

lemma findFold_inv (join : String → String) (anchors : List Anchor)
    (st : List String × List Link) (h : FindInv st) :
    FindInv (anchors.foldl (findStep join) st) := by
  induction anchors generalizing st with
  | nil => exact h
  | cons a rest ih => exact ih _ (findStep_inv join st a h)

lemma find_legal_links_nodup (join : String → String) (anchors : List Anchor) :
    ((find_legal_links join anchors).map Link.url).Nodup := by
  have h0 : FindInv (([], []) : List String × List Link) := by
    constructor
    · intro u; simp
    · simp
  exact (findFold_inv join anchors _ h0).2

lemma find_legal_links_drop_seen (join : String → String) (anchors : List Anchor)
    (a : Anchor) (h : join a.href ∈ (find_legal_links join anchors).map Link.url) :
    find_legal_links join (anchors ++ [a]) = find_legal_links join anchors := by
  have h0 : FindInv (([], []) : List String × List Link) := by
    constructor
    · intro u; simp
    · simp
  have hinv := findFold_inv join anchors _ h0
  unfold find_legal_links
  rw [List.foldl_append]
  simp only [List.foldl_cons, List.foldl_nil]
  have hseen : join a.href ∈ (anchors.foldl (findStep join) ([], [])).1 :=
    (hinv.1 _).2 h
  simp only [findStep]
  rw [if_pos hseen]

lemma addProbesStep_nodup (base : String) (acc : List Link) (path : String)
    (h : (acc.map Link.url).Nodup) :
    ((addProbesStep base acc path).map Link.url).Nodup := by
  simp only [addProbesStep]
  split
  · exact h
  · rename_i hmem
    simp [List.nodup_append, h, hmem]

lemma addProbesFold_nodup (base : String) (paths : List String) (acc : List Link)
    (h : (acc.map Link.url).Nodup) :
    ((paths.foldl (addProbesStep base) acc).map Link.url).Nodup := by
  induction paths generalizing acc with
  | nil => exact h
  | cons p rest ih => exact ih _ (addProbesStep_nodup base acc p h)

lemma mem_addProbesFold (base : String) (paths : List String) (acc : List Link)
    (l : Link) (h : l ∈ paths.foldl (addProbesStep base) acc) :
    l ∈ acc ∨ ∃ p ∈ paths, l.url = base ++ p := by
  induction paths generalizing acc with
  | nil => exact Or.inl h
  | cons p rest ih =>
    rw [List.foldl_cons] at h
    rcases ih _ h with h' | ⟨q, hq, hql⟩
    · simp only [addProbesStep] at h'
      split at h'
      · exact Or.inl h'
      · rw [List.mem_append, List.mem_singleton] at h'
        rcases h' with h' | h'
        · exact Or.inl h'
        · exact Or.inr ⟨p, List.mem_cons_self _ _, by rw [h']⟩
    · exact Or.inr ⟨q, List.mem_cons_of_mem _ hq, hql⟩

/-- Detects a run of three or more consecutive newlines. -/
def hasTripleNewline : List Char → Bool
  | [] => false
  | c :: rest => (c == '\n' && rest.take 2 == ['\n', '\n']) || hasTripleNewline rest

lemma hasTriple_cons (c : Char) (l : List Char) :
    hasTripleNewline (c :: l) =
      ((c == '\n' && l.take 2 == ['\n', '\n']) || hasTripleNewline l) := rfl

lemma hasTriple_cons_ne (c : Char) (l : List Char) (h : c ≠ '\n') :
    hasTripleNewline (c :: l) = hasTripleNewline l := by
  rw [hasTriple_cons]
  simp [h]

lemma hasTriple_nl_cons_ne (c : Char) (l : List Char) (h : c ≠ '\n') :
    hasTripleNewline ('\n' :: c :: l) = hasTripleNewline l := by
  rw [hasTriple_cons]
  cases l with
  | nil => simp [hasTripleNewline, h]
  | cons d rest => simp [hasTriple_cons_ne c _ h, h]

lemma hasTriple_nlnl_cons_ne (c : Char) (l : List Char) (h : c ≠ '\n') :
    hasTripleNewline ('\n' :: '\n' :: c :: l) = hasTripleNewline l := by
  rw [hasTriple_cons]
  simp [hasTriple_nl_cons_ne c l h, h]

lemma hasTriple_emitRun (k : Nat) : hasTripleNewline (emitRun k) = false := by
  by_cases h : k ≥ 3
  · simp only [emitRun, if_pos h]
    decide
  · simp only [emitRun, if_neg h]
    interval_cases k <;> decide

lemma hasTriple_emitRun_append (k : Nat) (c : Char) (l : List Char) (h : c ≠ '\n') :
    hasTripleNewline (emitRun k ++ c :: l) = hasTripleNewline l := by
  by_cases hk : k ≥ 3
  · simp only [emitRun, if_pos hk, List.cons_append, List.nil_append]
    exact hasTriple_nlnl_cons_ne c l h
  · simp only [emitRun, if_neg hk]
    interval_cases k
    · simpa using hasTriple_cons_ne c l h
    · simpa using hasTriple_nl_cons_ne c l h
    · simpa using hasTriple_nlnl_cons_ne c l h

lemma hasTriple_collapseAux (l : List Char) : ∀ k,
    hasTripleNewline (collapseAux k l) = false := by
  induction l with
  | nil => intro k; simpa [collapseAux] using hasTriple_emitRun k
  | cons c rest ih =>
    intro k
    by_cases h : c = '\n'
    · simp only [collapseAux, if_pos h]
      exact ih (k + 1)
    · simp only [collapseAux, if_neg h]
      rw [hasTriple_emitRun_append k c _ h]
      exact ih 0

lemma clean_text_no_triple (text : String) :
    hasTripleNewline (clean_text_of text).data = false :=
  hasTriple_collapseAux text.data 0

lemma truncated_of_le (text : String) : (truncated_of text).length ≤ 5000 := by
  simp only [truncated_of]
  split
  · show (String.mk ((clean_text_of text).data.take 5000)).length ≤ 5000
    show ((clean_text_of text).data.take 5000).length ≤ 5000
    simp
  · omega

lemma data_append (s t : String) : (s ++ t).data = s.data ++ t.data := rfl

/-- A run whose root fetch fails: `get_page_content` returns empty html. -/
def envFail : Env :=
  { fetch := fun _ => ("", ""), parseAnchors := fun _ => [], join := fun h => h,
    base := "https://example.com", oracle := fun _ _ _ => .error (),
    jsonDecode := fun _ => none }

/-- A run whose root fetch succeeds but no page has anchors or usable text. -/
def envNoContent : Env :=
  { fetch := fun _ => ("<a></a>", ""), parseAnchors := fun _ => [],
    join := fun h => h, base := "https://example.com",
    oracle := fun _ _ _ => .error (), jsonDecode := fun _ => none }

/-- A run whose oracle classifies every page as `R01_terms_and_conditions`
with confidence `0.55` (below the acceptance threshold); page text is 200
characters long so no candidate is skipped for lack of content. -/
def envLowConfidence : Env :=
  { fetch := fun _ => ("<a></a>", String.mk (List.replicate 200 'x')),
    parseAnchors := fun _ => [], join := fun h => h,
    base := "https://example.com", oracle := fun _ _ _ => .ok "\x7b\x7d",
    jsonDecode := fun _ => some ⟨"R01_terms_and_conditions", mkRat 55 100, "low"⟩ }

/-- C1: each of the seven category slots in the ResultMap is either the
sentinel "None" or exactly one rendered value (the slot list always carries
exactly the seven distinct taxonomy keys, and every stored value is the
sentinel or a `convert_to_rich_text` rendering), and once a slot holds a
non-sentinel value, further processing of candidates never overwrites it
(first accepted candidate wins). -/
theorem C1_slots_sentinel_or_single_never_overwritten :
    (∀ env target_url,
      (scrape_legal_documents env target_url).slots.map Prod.fst = DOC_KEYS ∧
      DOC_KEYS.Nodup ∧
      (∀ cat v,
        assocFind (scrape_legal_documents env target_url).slots cat = some v →
        SlotOk v)) ∧
    (∀ env (st : List (String × String) × Nat) (links : List Link) (cat v : String),
      assocFind st.1 cat = some v → v ≠ "None" →
      assocFind (links.foldl (processStep env) st).1 cat = some v) := by
  have h0 : ∀ p ∈ results0, SlotOk p.2 := by
    intro p hp
    simp only [results0, List.mem_map] at hp
    obtain ⟨q, _, hq⟩ := hp
    exact Or.inl (congrArg Prod.snd hq).symm
  constructor
  · intro env target_url
    refine ⟨?_, by decide, ?_⟩
    · rcases eq_or_ne (env.fetch target_url).1 "" with hroot | hroot
      · rw [scrape_fail_slots env target_url hroot]
        decide
      · rw [scrape_ok_slots env target_url hroot, processFold_map_fst]
        decide
    · intro cat v hfind
      rcases eq_or_ne (env.fetch target_url).1 "" with hroot | hroot
      · rw [scrape_fail_slots env target_url hroot] at hfind
        exact h0 _ (assocFind_mem _ _ _ hfind)
      · rw [scrape_ok_slots env target_url hroot] at hfind
        exact processFold_slotOk env _ (results0, 0) h0 _ (assocFind_mem _ _ _ hfind)
  · intro env st links cat v h hv
    exact processFold_preserve env links st cat v h hv

/-- C1 witness: a slot already holding a non-sentinel value survives a
processing step, and the sentinel itself is a well-formed slot value. -/
theorem C1_slots_sentinel_or_single_never_overwritten_witness :
    SlotOk "None" ∧
    assocFind (([⟨"https://example.com/terms", "Terms", "/terms"⟩] : List Link).foldl
        (processStep envFail) ([("R01_terms_and_conditions", "kept")], 1)).1
      "R01_terms_and_conditions" = some "kept" :=
  ⟨(C1_slots_sentinel_or_single_never_overwritten.1 envFail "u").2.2
      "R01_terms_and_conditions" "None" (by decide),
   C1_slots_sentinel_or_single_never_overwritten.2 envFail
      ([("R01_terms_and_conditions", "kept")], 1)
      [⟨"https://example.com/terms", "Terms", "/terms"⟩]
      "R01_terms_and_conditions" "kept" rfl (by decide)⟩

/-- C2: a classification outcome is written into the ResultMap only if its
category is one of the seven taxonomy keys and its confidence is at least
0.6; any candidate whose outcome fails that test leaves the slots and the
documents-found counter unchanged. -/
theorem C2_acceptance_needs_valid_category_and_confidence :
    ∀ env (st : List (String × String) × Nat) (link : Link),
      ¬((classify_document_with_ai env.oracle env.jsonDecode link.url
            ((env.fetch link.url).2) link.text).category ∈ DOC_KEYS ∧
        (classify_document_with_ai env.oracle env.jsonDecode link.url
            ((env.fetch link.url).2) link.text).confidence ≥ mkRat 6 10) →
      processStep env st link = st := by
  intro env st link h
  rcases processStep_eq_or env st link with hh | ⟨hacc, _, _⟩
  · exact hh
  · exact absurd hacc h

set_option maxRecDepth 8192 in
/-- C2 witness: an outcome with valid category `R01_terms_and_conditions`
but confidence 0.55 is rejected; all slots stay "None" and the counter
stays 0. -/
theorem C2_acceptance_needs_valid_category_and_confidence_witness :
    processStep envLowConfidence (results0, 0)
        ⟨"https://example.com/terms", "Terms", "/terms"⟩ =
      (results0, 0) :=
  C2_acceptance_needs_valid_category_and_confidence envLowConfidence
    (results0, 0)
    ⟨"https://example.com/terms", "Terms", "/terms"⟩ (by decide)

/-- C3 counterexample: on a failed root fetch the returned metadata has NO
"status" entry at all (the code records only an "error" message), so the
claimed `status = "failed_to_fetch"` does not exist at this concrete input. -/
theorem C3_counterexample_no_status_field :
    (envFail.fetch "https://example.com").1 = "" ∧
    assocFind (scrape_legal_documents envFail "https://example.com").meta
      "status" = none :=
  ⟨rfl, by decide⟩

/-- C3 amended: for every target URL whose root page cannot be fetched, the
run short-circuits and returns the fully determined failure result: all
seven slots "None" and metadata carrying the error message "Could not fetch
main page" (there is no status field); no probing, candidate fetching or
classification influences the result. -/
theorem C3_root_fetch_failure_short_circuits :
    ∀ env target_url, (env.fetch target_url).1 = "" →
      scrape_legal_documents env target_url =
        { slots := DOCUMENT_TYPES.map (fun p => (p.1, "None")),
          meta := [("url", .str target_url), ("links_found", .nat 0),
            ("documents_identified", .nat 0),
            ("error", .str "Could not fetch main page")] } := by
  intro env target_url h
  have heta : scrape_legal_documents env target_url =
      ⟨(scrape_legal_documents env target_url).slots,
       (scrape_legal_documents env target_url).meta⟩ := rfl
  rw [heta, scrape_fail_slots env target_url h, scrape_fail_meta env target_url h]
  rfl

/-- C3 witness: the amended theorem applied to a concrete failing fetch. -/
theorem C3_root_fetch_failure_short_circuits_witness :
    scrape_legal_documents envFail "https://example.com" =
      { slots := DOCUMENT_TYPES.map (fun p => (p.1, "None")),
        meta := [("url", .str "https://example.com"), ("links_found", .nat 0),
          ("documents_identified", .nat 0),
          ("error", .str "Could not fetch main page")] } :=
  C3_root_fetch_failure_short_circuits envFail "https://example.com" rfl

/-- C4: extracted candidates are deduplicated by absolute URL with the
first occurrence winning (a later anchor resolving to an already-accepted
URL leaves the output unchanged), a probed path is added only when its
absolute URL is not already among the candidates, and the merged candidate
list has pairwise distinct URLs, so each URL is classified at most once. -/
theorem C4_candidates_unique_by_absolute_url :
    (∀ join anchors, ((find_legal_links join anchors).map Link.url).Nodup) ∧
    (∀ join anchors (a : Anchor),
      join a.href ∈ (find_legal_links join anchors).map Link.url →
      find_legal_links join (anchors ++ [a]) = find_legal_links join anchors) ∧
    (∀ base (acc : List Link) path, base ++ path ∈ acc.map Link.url →
      addProbesStep base acc path = acc) ∧
    (∀ join anchors base,
      ((addProbes base (find_legal_links join anchors)).map Link.url).Nodup) := by
  refine ⟨find_legal_links_nodup, find_legal_links_drop_seen, ?_, ?_⟩
  · intro base acc path h
    simp only [addProbesStep]
    rw [if_pos h]
  · intro join anchors base
    exact addProbesFold_nodup base common_paths _ (find_legal_links_nodup join anchors)

/-- C4 witness: a second anchor with the same URL is dropped, and a probed
path whose URL is already a candidate is not added again. -/
theorem C4_candidates_unique_by_absolute_url_witness :
    find_legal_links (fun h => h)
        ([⟨"/privacy", "Privacy"⟩] ++ [⟨"/privacy", "Privacy again"⟩]) =
      find_legal_links (fun h => h) [⟨"/privacy", "Privacy"⟩] ∧
    addProbesStep "https://example.com"
        [⟨"https://example.com/terms", "Terms", "/terms"⟩] "/terms" =
      [⟨"https://example.com/terms", "Terms", "/terms"⟩] :=
  ⟨C4_candidates_unique_by_absolute_url.2.1 (fun h => h)
      [⟨"/privacy", "Privacy"⟩] ⟨"/privacy", "Privacy again"⟩ (by decide),
   C4_candidates_unique_by_absolute_url.2.2.1 "https://example.com"
      [⟨"https://example.com/terms", "Terms", "/terms"⟩] "/terms" (by decide)⟩

/-- C5: for every failure mode of the oracle path — the call raising, a
reply with no brace-delimited structured object, or a structured object
that does not parse — `classify_document_with_ai` returns the outcome
`{category: "unknown", confidence: 0, summary: ""}` instead of raising. -/
theorem C5_classifier_degrades_on_oracle_failure :
    ∀ (oracle : String → String → String → Except Unit String)
      (jsonDecode : String → Option Outcome) (url text link_text : String),
      (oracle url (text_preview_of text) link_text = .error () →
        classify_document_with_ai oracle jsonDecode url text link_text =
          defaultOutcome) ∧
      (∀ reply, oracle url (text_preview_of text) link_text = .ok reply →
        extractJson reply = none →
        classify_document_with_ai oracle jsonDecode url text link_text =
          defaultOutcome) ∧
      (∀ reply j, oracle url (text_preview_of text) link_text = .ok reply →
        extractJson reply = some j → jsonDecode j = none →
        classify_document_with_ai oracle jsonDecode url text link_text =
          defaultOutcome) := by
  intro oracle jsonDecode url text link_text
  refine ⟨?_, ?_, ?_⟩
  · intro h
    simp [classify_document_with_ai, h]
  · intro reply h1 h2
    simp [classify_document_with_ai, h1, h2]
  · intro reply j h1 h2 h3
    simp [classify_document_with_ai, h1, h2, h3]

/-- C5 witness: the three failure modes at concrete inputs — a raising
call, a reply without braces, and an unparseable braced object. -/
theorem C5_classifier_degrades_on_oracle_failure_witness :
    classify_document_with_ai (fun _ _ _ => .error ()) (fun _ => none)
        "u" "page text" "link" = defaultOutcome ∧
    classify_document_with_ai (fun _ _ _ => .ok "no structured reply")
        (fun _ => none) "u" "page text" "link" = defaultOutcome ∧
    classify_document_with_ai (fun _ _ _ => .ok "x\x7bnot json\x7dy")
        (fun _ => none) "u" "page text" "link" = defaultOutcome :=
  ⟨(C5_classifier_degrades_on_oracle_failure (fun _ _ _ => .error ())
      (fun _ => none) "u" "page text" "link").1 rfl,
   (C5_classifier_degrades_on_oracle_failure (fun _ _ _ => .ok "no structured reply")
      (fun _ => none) "u" "page text" "link").2.1 "no structured reply" rfl (by decide),
   (C5_classifier_degrades_on_oracle_failure (fun _ _ _ => .ok "x\x7bnot json\x7dy")
      (fun _ => none) "u" "page text" "link").2.2 "x\x7bnot json\x7dy"
      "\x7bnot json\x7d" rfl (by decide) rfl⟩

/-- C6 counterexample: an anchor with href `javascript:void(0)` and visible
text "Privacy Policy" DOES become a candidate (the extractor applies no
href-scheme filtering), refuting the claim that such anchors are always
ignored.  The identity `join` matches Python's `urljoin`, which returns a
scheme-carrying href unchanged. -/
theorem C6_counterexample_javascript_href_becomes_candidate :
    find_legal_links (fun href => href) [⟨"javascript:void(0)", "Privacy Policy"⟩] =
      [⟨"javascript:void(0)", "Privacy Policy", "javascript:void(0)"⟩] := by
  decide

/-- C6 amended: the extractor filters anchors only by the legal-keyword
test on their case-folded text and href (plus URL deduplication); it has no
special handling for empty, `javascript:`, or bare "#" hrefs — a single
anchor becomes a candidate exactly when `isLegalAnchor` accepts it. -/
theorem C6_amended_keyword_filter_only :
    ∀ (join : String → String) (a : Anchor),
      (isLegalAnchor a = true →
        find_legal_links join [a] = [⟨join a.href, a.text, a.href⟩]) ∧
      (isLegalAnchor a = false → find_legal_links join [a] = []) := by
  intro join a
  constructor
  · intro h
    simp only [find_legal_links, List.foldl_cons, List.foldl_nil, findStep]
    rw [if_neg (List.not_mem_nil _), if_pos h]
    rfl
  · intro h
    simp only [find_legal_links, List.foldl_cons, List.foldl_nil, findStep]
    rw [if_neg (List.not_mem_nil _), if_neg (by simp [h])]

/-- C6 witness: an empty-href keyword anchor becomes a candidate, while an
anchor matching no legal keyword does not. -/
theorem C6_amended_keyword_filter_only_witness :
    find_legal_links (fun href => href) [⟨"", "Privacy Policy"⟩] =
        [⟨"", "Privacy Policy", ""⟩] ∧
    find_legal_links (fun href => href) [⟨"/about", "About"⟩] = [] :=
  ⟨(C6_amended_keyword_filter_only (fun href => href)
      ⟨"", "Privacy Policy"⟩).1 (by decide),
   (C6_amended_keyword_filter_only (fun href => href) ⟨"/about", "About"⟩).2
      (by decide)⟩

/-- C7: a candidate whose page fetch fails (empty text) or yields text
shorter than 100 characters is skipped entirely — the state is unchanged
for every possible classifier, so the candidate is never classified,
occupies no slot and does not increment the documents-found count. -/
theorem C7_short_or_failed_fetch_candidate_skipped :
    ∀ (fetch : String → String × String) (parseAnchors : String → List Anchor)
      (join : String → String) (base : String)
      (oracle : String → String → String → Except Unit String)
      (jsonDecode : String → Option Outcome)
      (st : List (String × String) × Nat) (link : Link),
      (fetch link.url).2 = "" ∨ ((fetch link.url).2).length < 100 →
      processStep ⟨fetch, parseAnchors, join, base, oracle, jsonDecode⟩ st link = st := by
  intro fetch parseAnchors join base oracle jsonDecode st link h
  exact processStep_skip _ st link h

/-- C7 witness: a 4-character page text leaves state untouched. -/
theorem C7_short_or_failed_fetch_candidate_skipped_witness :
    processStep ⟨fun _ => ("", "tiny"), fun _ => [], fun h => h,
        "https://example.com", fun _ _ _ => .error (), fun _ => none⟩
      (DOCUMENT_TYPES.map (fun p => (p.1, "None")), 0) ⟨"u", "t", "h"⟩ =
      (DOCUMENT_TYPES.map (fun p => (p.1, "None")), 0) :=
  C7_short_or_failed_fetch_candidate_skipped (fun _ => ("", "tiny"))
    (fun _ => []) (fun h => h) "https://example.com" (fun _ _ _ => .error ())
    (fun _ => none) (DOCUMENT_TYPES.map (fun p => (p.1, "None")), 0)
    ⟨"u", "t", "h"⟩ (Or.inr (by decide))

/-- C8: the rendered block is exactly source URL, oracle summary, and an
excerpt of the cleaned page text; the cleaned text has no run of three or
more newlines, the excerpt is at most 5000 characters, the truncation
marker appears exactly when the cleaned text exceeds 5000 characters, and
the block contains the URL and the summary verbatim. -/
theorem C8_rendered_block_structure :
    ∀ text url summary,
      convert_to_rich_text text url summary =
        "**Source:** [" ++ url ++ "](" ++ url ++ ")\n\n**Summary:** " ++ summary ++
          "\n\n---\n\n" ++ truncated_of text ++ "\n\n" ++
          (if (clean_text_of text).length > 5000 then "..." else "") ++ "\n" ∧
      (truncated_of text).length ≤ 5000 ∧
      ((clean_text_of text).length > 5000 ↔
        (if (clean_text_of text).length > 5000 then "..." else "") = "...") ∧
      hasTripleNewline (clean_text_of text).data = false ∧
      (∃ pre suf, (convert_to_rich_text text url summary).data =
        pre ++ url.data ++ suf) ∧
      (∃ pre suf, (convert_to_rich_text text url summary).data =
        pre ++ summary.data ++ suf) := by
  intro text url summary
  refine ⟨rfl, truncated_of_le text, ?_, clean_text_no_triple text, ?_, ?_⟩
  · by_cases h : (clean_text_of text).length > 5000
    · simp [h]
    · simp [h, show ("" : String) ≠ "..." from by decide]
  · refine ⟨("**Source:** [" : String).data,
      (("](" ++ url ++ ")\n\n**Summary:** " ++ summary ++ "\n\n---\n\n" ++
        truncated_of text ++ "\n\n" ++
        (if (clean_text_of text).length > 5000 then "..." else "") ++ "\n" : String)).data, ?_⟩
    simp only [convert_to_rich_text, data_append, List.append_assoc]
  · refine ⟨(("**Source:** [" ++ url ++ "](" ++ url ++ ")\n\n**Summary:** " : String)).data,
      (("\n\n---\n\n" ++ truncated_of text ++ "\n\n" ++
        (if (clean_text_of text).length > 5000 then "..." else "") ++ "\n" : String)).data, ?_⟩
    simp only [convert_to_rich_text, data_append, List.append_assoc]

/-- C9: when the root page fetches but has no anchors and every probed
conventional path yields text shorter than 100 characters, the run returns
all seven slots "None", a documents-identified count of 0, and no error
entry in the metadata (a successful run). -/
theorem C9_no_usable_content_is_successful_empty_run :
    ∀ env target_url,
      (env.fetch target_url).1 ≠ "" →
      env.parseAnchors (env.fetch target_url).1 = [] →
      (∀ path, path ∈ common_paths →
        ((env.fetch (env.base ++ path)).2).length < 100) →
      (scrape_legal_documents env target_url).slots = results0 ∧
      assocFind (scrape_legal_documents env target_url).meta
        "documents_identified" = some (.nat 0) ∧
      assocFind (scrape_legal_documents env target_url).meta "error" = none := by
  intro env target_url h1 h2 h3
  have hshort : ∀ l ∈ addProbes env.base
      (find_legal_links env.join (env.parseAnchors (env.fetch target_url).1)),
      ((env.fetch l.url).2).length < 100 := by
    intro l hl
    rw [h2] at hl
    rcases mem_addProbesFold env.base common_paths _ l hl with h' | ⟨p, hp, hurl⟩
    · exact absurd h' (List.not_mem_nil l)
    · rw [hurl]
      exact h3 p hp
  refine ⟨?_, ?_, ?_⟩
  · rw [scrape_ok_slots env target_url h1, processFold_skip_all env _ _ hshort]
  · rw [scrape_ok_meta env target_url h1,
      processFold_skip_all env _ _ hshort, assocFind_assocSet_self]
  · rw [scrape_ok_meta env target_url h1,
      assocFind_assocSet_ne _ _ _ _ (by decide),
      assocFind_assocSet_ne _ _ _ _ (by decide)]
    rfl

/-- C9 witness: a concrete run with markup `<a></a>`, no anchors, and empty
text everywhere. -/
theorem C9_no_usable_content_is_successful_empty_run_witness :
    (scrape_legal_documents envNoContent "https://example.com").slots = results0 ∧
    assocFind (scrape_legal_documents envNoContent "https://example.com").meta
      "documents_identified" = some (.nat 0) ∧
    assocFind (scrape_legal_documents envNoContent "https://example.com").meta
      "error" = none :=
  C9_no_usable_content_is_successful_empty_run envNoContent "https://example.com"
    (by decide : ("<a></a>" : String) ≠ "") rfl
    (fun path hp => (by decide : ("" : String).length < 100))

/-- C10: in every result of `scrape_legal_documents`, the metadata field
`documents_identified` equals the number of category slots holding a
non-"None" value — the counter and the slots can never disagree. -/
theorem C10_documents_identified_equals_filled_slots :
    ∀ env target_url,
      assocFind (scrape_legal_documents env target_url).meta
        "documents_identified" =
        some (.nat (countNonNone (scrape_legal_documents env target_url).slots)) := by
  intro env target_url
  rcases eq_or_ne (env.fetch target_url).1 "" with h | h
  · rw [scrape_fail_meta env target_url h, scrape_fail_slots env target_url h]
    have hc : countNonNone results0 = 0 := by decide
    rw [hc]
    rfl
  · rw [scrape_ok_meta env target_url h, scrape_ok_slots env target_url h,
      assocFind_assocSet_self,
      processFold_count env
        (addProbes env.base
          (find_legal_links env.join (env.parseAnchors (env.fetch target_url).1)))
        (results0, 0) (by decide)]

end LegalScraper
